import Mathlib

/-!
Verification development for the nextrj_route web router (Deno/TypeScript).

The definitions below are a shallow embedding of the latest revision of
`mod.ts` (the revision that provides `sub`, `setDebug`, `getAllFilters`,
`mapError` and per-method registration overloads).  Asynchronous code is
modelled by sequential state passing: the dispatch engine awaits every
filter and the handler in order, so a run of `handle` is a sequential
computation; thrown errors and rejected promises are modelled with
`Except`.  JS objects used as string-keyed records are modelled as
association lists with in-place overwrite on assignment.
-/

/-- Supported http methods (enum Method). -/
inductive Method where
  | GET | HEAD | POST | PUT | DELETE | OPTIONS | TRACE | PATCH
deriving DecidableEq, Repr

/-- The cast `req.method as Method`: a request method string designates an
entry list only when it is one of the eight enum values; any other string
indexes `#handlers` at an absent key, which yields `undefined` in JS. -/
def methodOfString (s : String) : Option Method :=
  if s = "GET" then some .GET
  else if s = "HEAD" then some .HEAD
  else if s = "POST" then some .POST
  else if s = "PUT" then some .PUT
  else if s = "DELETE" then some .DELETE
  else if s = "OPTIONS" then some .OPTIONS
  else if s = "TRACE" then some .TRACE
  else if s = "PATCH" then some .PATCH
  else none

/-- A context value: JS values stored in the per-request Context.  The
scenarios exercised by the router store the client metadata, extracted
path-parameter strings and string arrays built by filters. -/
inductive Val where
  | undef
  | str (s : String)
  | strs (l : List String)
  | clientHost (host : String)
deriving DecidableEq, Repr

/-- The per-request Context: a JS object, string keys to values. -/
abbrev Ctx := List (String × Val)

/-- JS property read `ctx[k]`. -/
def ctxGet (c : Ctx) (k : String) : Option Val :=
  (c.find? (fun kv => kv.1 = k)).map (·.2)

/-- JS property write `ctx[k] = v`: overwrite in place, else append. -/
def ctxSet (c : Ctx) (k : String) (v : Val) : Ctx :=
  if (c.find? (fun kv => kv.1 = k)).isSome then
    c.map (fun kv => if kv.1 = k then (k, v) else kv)
  else c ++ [(k, v)]

/-- `Object.assign(ctx, data)`: copy every key of `data` into `ctx`. -/
def ctxAssign (c : Ctx) (d : Ctx) : Ctx :=
  d.foldl (fun acc kv => ctxSet acc kv.1 kv.2) c

/-- A thrown JS error: its constructor name and message. -/
structure Err where
  name : String
  message : String
deriving DecidableEq, Repr

/-- A web Response, reduced to the components the router constructs and
the spec talks about: status, body text (None = null body), headers. -/
structure Response where
  status : Nat
  body : Option String
  headers : List (String × String)
deriving DecidableEq, Repr

/-- The URL components a route pattern constrains.  Patterns are created
with `search: star, hash: star`, so only the pathname takes part in
matching; we carry the search string to state that explicitly. -/
structure URLParts where
  pathname : String
  search : String
deriving DecidableEq, Repr

/-- An incoming request: its method string and URL. -/
structure Request where
  method : String
  url : URLParts
deriving DecidableEq, Repr

/-- The value a handler produces: either a Response returned
synchronously (or an error thrown synchronously), or a promise that the
engine awaits (resolved or rejected). -/
inductive HandlerOutput where
  | sync (r : Except Err Response)
  | async (r : Except Err Response)

/-- `await` on a handler result: a synchronous throw propagates before
the await, a rejected promise is raised at the await; both surface as an
`Except.error` at the await point inside the try block of `handle`. -/
def awaitOut : HandlerOutput → Except Err Response
  | .sync r => r
  | .async r => r

/-- The Handler contract. -/
abbrev Handler := Request → Ctx → HandlerOutput

/-- The Filter contract: a filter may mutate the context (first
component of the result) and may return a data object that the engine
merges into the context (`none` models a void return); it may throw.
(Named RouteFilter here: Mathlib already claims the name Filter.) -/
abbrev RouteFilter := Request → Ctx → Except Err (Ctx × Option Ctx)

/-- The ErrorMapper contract: `(error, request) => Response | undefined`. -/
abbrev ErrorMapper := Err → Request → Option Response

/-- DEFAULT_ERROR_MAPPER: `new Response(err.message, { status: 500 })`.
The source implementation always returns a response (the call site casts
away the undefined of the `ErrorMapper` type), so we give it the total
type. -/
def DEFAULT_ERROR_MAPPER (e : Err) (_req : Request) : Response :=
  ⟨500, some e.message, []⟩

/- ---------------------------------------------------------------------
URLPattern pathname matching for the route template grammar (literal
segments, `:name` segments, trailing `*`).  A pattern and a pathname are
compared segmentwise after splitting on the slash.  String splitting,
prefix and suffix tests are implemented on the character list so that
every definition evaluates by kernel reduction (the library versions use
well-founded recursion on byte positions). -/

/-- Split a character list at every occurrence of the separator. -/
def splitChars (sep : Char) : List Char → List (List Char)
  | [] => [[]]
  | c :: cs =>
    match splitChars sep cs with
    | [] => [[]]
    | g :: gs => if c = sep then [] :: g :: gs else (c :: g) :: gs

/-- Split a string at every slash: the value of splitOn for a slash. -/
def splitSlash (s : String) : List String :=
  (splitChars '/' s.data).map String.mk

/-- Does the string start with the given character. -/
def strStartsWithChar (s : String) (c : Char) : Bool :=
  match s.data with
  | [] => false
  | c2 :: _ => c2 = c

/-- Does the string end with the given character. -/
def strEndsWithChar (s : String) (c : Char) : Bool :=
  match s.data.getLast? with
  | none => false
  | some c2 => c2 = c

/-- Remove the first character of a string. -/
def strTail (s : String) : String := String.mk s.data.tail

/-- Join segments with slashes: the value of intercalate for a slash. -/
def joinSegs : List String → String
  | [] => ""
  | [s] => s
  | s :: ss => s ++ "/" ++ joinSegs ss

/-- Boolean pathname match of `pattern.test` on segment lists. -/
def segsTest : List String → List String → Bool
  | [], us => us.isEmpty
  | p :: ps, us =>
    if p == "*" && ps.isEmpty then
      !us.isEmpty
    else
      match us with
      | [] => false
      | u :: us2 =>
        if strStartsWithChar p ':' then !u.isEmpty && segsTest ps us2
        else p == u && segsTest ps us2

/-- Capturing pathname match of `pattern.exec` on segment lists: named
groups keyed by name, the trailing wildcard remainder keyed "0". -/
def segsExec : List String → List String → Option (List (String × String))
  | [], us => if us.isEmpty then some [] else none
  | p :: ps, us =>
    if p == "*" && ps.isEmpty then
      if us.isEmpty then none else some [("0", joinSegs us)]
    else
      match us with
      | [] => none
      | u :: us2 =>
        if strStartsWithChar p ':' then
          if u.isEmpty then none
          else (segsExec ps us2).map (fun g => (strTail p, u) :: g)
        else if p == u then segsExec ps us2 else none

/-- `pattern.test(url)`: the pattern is built with wildcard search and
hash components, so only the pathname is inspected. -/
def patternTest (p : String) (u : URLParts) : Bool :=
  segsTest (splitSlash p) (splitSlash u.pathname)

/-- `pattern.exec(url)?.pathname?.groups`. -/
def patternExec (p : String) (u : URLParts) : Option (List (String × String)) :=
  segsExec (splitSlash p) (splitSlash u.pathname)

/-- Read an extracted parameter by string key. -/
def groupsGetStr (g : List (String × String)) (k : String) : Option String :=
  (g.find? (fun kv => kv.1 = k)).map (·.2)

/-- Read an extracted parameter by integer key: JS coerces a numeric
property key to its decimal string before the lookup. -/
def groupsGetNat (g : List (String × String)) (n : Nat) : Option String :=
  groupsGetStr g (toString n)

/- ---------------------------------------------------------------------
Path helpers of the Route module. -/

/-- autoSlashPrefix: auto add the slash to a path; falsy values (absent
or empty string) pass through unchanged. -/
def autoSlashPrefix (path : Option String) : Option String :=
  match path with
  | none => none
  | some s =>
    if s = "" then some s
    else if strStartsWithChar s '/' then some s
    else some ("/" ++ s)

/-- joinUrlPath: drop falsy parts and concatenate; a part is kept only
while the FIRST collected part does not end with a slash (the source
checks p[0], the first element of the accumulator). -/
def joinUrlPath (paths : List (Option String)) : Option String :=
  if paths.isEmpty then none
  else
    let kept := ((paths.filterMap id).filter (fun p => p ≠ "")).foldl
      (fun acc c =>
        if acc.isEmpty then acc ++ [c]
        else if !(strEndsWithChar (acc.headD "") '/') then acc ++ [c]
        else acc) []
    some (kept.foldl (fun a b => a ++ b) "")

/-- One entry of a per-method table: the compiled pattern (its pathname
string), the handler, the handler-local filters, the declared path and
the accumulated sub path. -/
structure HandlerMatcher where
  pattern : String
  handler : Handler
  filters : List RouteFilter
  path : Option String
  subPath : Option String

/-- The Route class.  `parent` models the private `#parent` link set by
`#setParent` (in this revision `sub` flattens the child tables and never
installs the link; the field and the functions walking it stay faithful
to the source).  The write-only `#children` list and the `#debug` flag
are omitted: no reachable behavior reads them. -/
inductive Route where
  | mk (path : Option String) (filters : List RouteFilter) (errMapper : Option ErrorMapper)
       (handlers : Method → List HandlerMatcher)
       (parent : Option (Route × Option String))

/-- Route constructor: `new Route(path?, ...filter)`. -/
def Route.new (path : Option String) (filters : List RouteFilter) : Route :=
  .mk (autoSlashPrefix path) filters none (fun _ => []) none

def Route.path : Route → Option String
  | .mk p _ _ _ _ => p

def Route.routeFilters : Route → List RouteFilter
  | .mk _ fs _ _ _ => fs

def Route.errMapper : Route → Option ErrorMapper
  | .mk _ _ em _ _ => em

def Route.handlers : Route → Method → List HandlerMatcher
  | .mk _ _ _ hs _ => hs

def Route.parent : Route → Option (Route × Option String)
  | .mk _ _ _ _ par => par

/-- getAllFilters: all ancestor route filters then the own filters. -/
def Route.getAllFilters : Route → List RouteFilter
  | .mk _ fs _ _ par =>
    (match par with
     | some (p, _) => p.getAllFilters
     | none => []) ++ fs

/-- mapError: the own mapper if set and it yields a response, else the
parent chain, else the default mapper. -/
def Route.mapError : Route → Err → Request → Response
  | .mk _ _ em _ par, e, req =>
    match (match em with | some m => m e req | none => none) with
    | some resp => resp
    | none =>
      match par with
      | some (p, _) => p.mapError e req
      | none => DEFAULT_ERROR_MAPPER e req

/-- getFullPath: the concatenation of the ancestor paths and the own. -/
def Route.getFullPath : Route → Option String
  | .mk p _ _ _ par =>
    joinUrlPath [(match par with
                  | some (pr, _) => pr.getFullPath
                  | none => none), p]

/- ---------------------------------------------------------------------
Registration and composition. -/

/-- The entry that `add` pushes: the declared path is slash-prefixed and
the pattern joins the own route path with it. -/
def addEntry (rpath : Option String) (path : String) (h : Handler) (filters : List RouteFilter) :
    HandlerMatcher :=
  let p := (autoSlashPrefix (some path)).getD ""
  { pattern := (joinUrlPath [rpath, some p]).getD ""
    handler := h
    filters := filters
    path := some p
    subPath := none }

/-- Replace the per-method table at one method. -/
def Route.add (r : Route) (m : Method) (path : String) (h : Handler)
    (filters : List RouteFilter) : Route :=
  match r with
  | .mk rpath rfs em hs par =>
    .mk rpath rfs em
      (fun m2 => if m2 = m then hs m2 ++ [addEntry rpath path h filters] else hs m2) par

/-- get(path, handler, ...filters). -/
def Route.get (r : Route) (path : String) (h : Handler) (filters : List RouteFilter) : Route :=
  r.add .GET path h filters

/-- head(path, handler, ...filters).  The source forwards this overload
to `add(Method.GET, ...)` (sic). -/
def Route.head (r : Route) (path : String) (h : Handler) (filters : List RouteFilter) : Route :=
  r.add .GET path h filters

/-- post(path, handler, ...filters). -/
def Route.post (r : Route) (path : String) (h : Handler) (filters : List RouteFilter) : Route :=
  r.add .POST path h filters

/-- put(path, handler, ...filters). -/
def Route.put (r : Route) (path : String) (h : Handler) (filters : List RouteFilter) : Route :=
  r.add .PUT path h filters

/-- patch(path, handler, ...filters). -/
def Route.patch (r : Route) (path : String) (h : Handler) (filters : List RouteFilter) : Route :=
  r.add .PATCH path h filters

/-- delete(path, handler, ...filters). -/
def Route.delete (r : Route) (path : String) (h : Handler) (filters : List RouteFilter) : Route :=
  r.add .DELETE path h filters

/-- options(path, handler, ...filters). -/
def Route.options (r : Route) (path : String) (h : Handler) (filters : List RouteFilter) : Route :=
  r.add .OPTIONS path h filters

/-- trace(path, handler, ...filters). -/
def Route.trace (r : Route) (path : String) (h : Handler) (filters : List RouteFilter) : Route :=
  r.add .TRACE path h filters

/-- filter(...filters): replace the own filter list. -/
def Route.filter (r : Route) (filters : List RouteFilter) : Route :=
  match r with
  | .mk rpath _ em hs par => .mk rpath filters em hs par

/-- errorMapper(mapper): set the own error mapper. -/
def Route.errorMapper (r : Route) (m : ErrorMapper) : Route :=
  match r with
  | .mk rpath rfs _ hs par => .mk rpath rfs (some m) hs par

/-- The rewritten copy of a child entry that `sub` appends to the
parent: parentRoutePath + subPath + subRoutePath + handlerSubPath +
handlerPath becomes the new pattern, the sub path accumulates, handler
and filters are carried over unchanged. -/
def subEntry (rpath : Option String) (spath : Option String) (childPath : Option String)
    (hm : HandlerMatcher) : HandlerMatcher :=
  { pattern := (joinUrlPath [rpath, spath, childPath, hm.subPath, hm.path]).getD ""
    handler := hm.handler
    filters := hm.filters
    path := hm.path
    subPath := joinUrlPath [spath, hm.subPath] }

/-- sub(path?, route): flatten every entry of the child route into this
route's tables (appending, per method).  The child is recorded in the
write-only `#children` list and no parent link is installed. -/
def Route.sub (r : Route) (path : Option String) (child : Route) : Route :=
  match r with
  | .mk rpath rfs em hs par =>
    let spath := autoSlashPrefix path
    .mk rpath rfs em
      (fun m => hs m ++ (child.handlers m).map (subEntry rpath spath child.path)) par

/- ---------------------------------------------------------------------
Dispatch. -/

/-- The TypeError raised when `#handlers[req.method]` is undefined and
`.find` is read off it (request method outside the Method enum). -/
def undefinedFindErr : Err :=
  ⟨"TypeError", "Cannot read properties of undefined, reading find"⟩

/-- findMatchHandler: the first entry of the method's own table whose
pattern tests the request URL, paired with this route. -/
def Route.findMatchHandler (r : Route) (req : Request) :
    Except Err (Option (Route × HandlerMatcher)) :=
  match methodOfString req.method with
  | none => .error undefinedFindErr
  | some m =>
    .ok (((r.handlers m).find? (fun hm => patternTest hm.pattern req.url)).map
      (fun hm => (r, hm)))

/-- executeFilters: run each filter in order against the shared context;
an object returned by a filter is merged into the context. -/
def executeFilters (req : Request) : Ctx → List RouteFilter → Except Err Ctx
  | ctx, [] => .ok ctx
  | ctx, f :: fs =>
    match f req ctx with
    | .error e => .error e
    | .ok (ctx2, data) =>
      executeFilters req (match data with | some d => ctxAssign ctx2 d | none => ctx2) fs

/-- The context seeded with the optional client metadata. -/
def initCtx (info : Option String) : Ctx :=
  [("client", match info with | some h => .clientHost h | none => .undef)]

/-- Steps 2 and 3 of dispatch for a matched entry: build the context,
merge the extracted path parameters, then run the ancestor-and-own route
filters followed by the entry's own filters. -/
def filterPhase (route : Route) (hm : HandlerMatcher) (req : Request) (info : Option String) :
    Except Err Ctx :=
  let ctx := ctxAssign (initCtx info)
    (((patternExec hm.pattern req.url).getD []).map (fun kv => (kv.1, Val.str kv.2)))
  match executeFilters req ctx route.getAllFilters with
  | .error e => .error e
  | .ok ctx2 => executeFilters req ctx2 hm.filters

/-- Dispatch of a matched entry: the filter phase then the awaited
handler. -/
def dispatch (route : Route) (hm : HandlerMatcher) (req : Request) (info : Option String) :
    Except Err Response :=
  match filterPhase route hm req info with
  | .error e => .error e
  | .ok ctx => awaitOut (hm.handler req ctx)

/-- The 404 response for an unmatched request: null body, no headers. -/
def resp404 : Response := ⟨404, none, []⟩

/-- The try block of handle: match, dispatch, or the 404 fallback. -/
def Route.handleCore (r : Route) (req : Request) (info : Option String) :
    Except Err Response :=
  match r.findMatchHandler req with
  | .error e => .error e
  | .ok none => .ok resp404
  | .ok (some (route, hm)) => dispatch route hm req info

/-- handle(req, info): the try block with every raised error recovered
through mapError. -/
def Route.handle (r : Route) (req : Request) (info : Option String) : Response :=
  match r.handleCore req info with
  | .ok resp => resp
  | .error e => r.mapError e req

/- ---------------------------------------------------------------------
Concrete scenarios.  These mirror test cases of the repository's own
test suite (mod_test.ts): the three-level nested filter scenario, the
nested error-mapper scenario, the composition snapshot and the
registration overloads. -/

/-- A handler answering 200 with a fixed body. -/
def constHandler (s : String) : Handler := fun _ _ => .sync (.ok ⟨200, some s, []⟩)

/-- A handler that throws `new Error(msg)` synchronously. -/
def throwHandler (msg : String) : Handler := fun _ _ => .sync (.error ⟨"Error", msg⟩)

/-- A handler that returns a promise rejected with `new Error(msg)`. -/
def rejectHandler (msg : String) : Handler := fun _ _ => .async (.error ⟨"Error", msg⟩)

/-- The marker filter of the nested-filter test: push a marker string
onto the array at context key s, creating the array when absent. -/
def markerFilter (v : String) : RouteFilter := fun _ c =>
  .ok (ctxSet c "s" (match ctxGet c "s" with
    | some (.strs l) => .strs (l ++ [v])
    | _ => .strs [v]), none)

/-- The leaf handler of the nested-filter test: answer the markers
joined with a bar. -/
def joinHandler : Handler := fun _ c =>
  .sync (.ok ⟨200, some (String.intercalate "|" (match ctxGet c "s" with
    | some (.strs l) => l
    | _ => [])), []⟩)

/-- The three-level nested-filter router of the test suite: root filter
r, handlers at /h, /a/h, /a/b/h with local filters rh, ah, bh, child
route filters a and b. -/
def nestedFilterRoute : Route :=
  (((Route.new none [markerFilter "r"]).get "/h" joinHandler [markerFilter "rh"]).sub (some "/a")
    (((Route.new none [markerFilter "a"]).get "/h" joinHandler [markerFilter "ah"]).sub
      (some "/b")
      ((Route.new none [markerFilter "b"]).get "/h" joinHandler [markerFilter "bh"])))

/-- The error mapper of the nested error-mapper test: status 400 with
the prefixed message. -/
def prefMapper (p : String) : ErrorMapper := fun e _ =>
  some ⟨400, some (p ++ ":" ++ e.message), []⟩

/-- The nested error-mapper router of the test suite: no mapper at the
root, mapper a on the child, mapper b on the grandchild, a throwing
handler at every level. -/
def nestedMapperRoute : Route :=
  (((Route.new none []).get "/h" (throwHandler "h") []).sub (some "/a")
    ((((Route.new none []).errorMapper (prefMapper "a")).get "/h" (throwHandler "ah") []).sub
      (some "/b")
      (((Route.new none []).errorMapper (prefMapper "b")).get "/h" (throwHandler "bh") [])))

/-- The child router of the snapshot scenario before the late
registration. -/
def snapChild : Route := (Route.new none []).get "/early" (constHandler "early") []

/-- A parent that absorbed the child before the late registration. -/
def snapParent : Route := (Route.new none []).sub (some "/m") snapChild

/-- A parent that absorbed the child after the late registration. -/
def snapParentLate : Route :=
  (Route.new none []).sub (some "/m") (snapChild.get "/late" (constHandler "late") [])

/-- Two entries competing for the same path: first registered wins. -/
def prioRoute : Route :=
  ((Route.new none []).get "/p" (constHandler "first") []).get "/p" (constHandler "second") []

/-- The entry that the first registration of prioRoute pushes. -/
def prioEntry1 : HandlerMatcher := addEntry none "/p" (constHandler "first") []

/-- The entry that the second registration of prioRoute pushes. -/
def prioEntry2 : HandlerMatcher := addEntry none "/p" (constHandler "second") []

/-- A single-entry router whose handler throws synchronously. -/
def syncThrowRoute : Route := (Route.new none []).get "/h" (throwHandler "boom") []

/-- The entry registered by syncThrowRoute. -/
def syncThrowEntry : HandlerMatcher := addEntry none "/h" (throwHandler "boom") []

/- ---------------------------------------------------------------------
Theorems. -/

/-- The Boolean matcher and the capturing matcher agree: a segment
pattern tests positively exactly when execution yields captures. -/
theorem segsTest_eq_isSome (ps : List String) :
    ∀ us, segsTest ps us = (segsExec ps us).isSome := by
  induction ps with
  | nil =>
    intro us
    cases h : us.isEmpty <;> simp [segsTest, segsExec, h]
  | cons p ps ih =>
    intro us
    cases hw : (p == "*" && ps.isEmpty) with
    | true =>
      cases us <;> simp [segsTest, segsExec, hw]
    | false =>
      cases us with
      | nil => simp [segsTest, segsExec, hw]
      | cons u us2 =>
        cases hn : strStartsWithChar p ':' with
        | true =>
          cases hu : u.isEmpty <;>
            simp [segsTest, segsExec, hw, hn, hu, ih]
        | false =>
          cases hpu : (p == u) <;>
            simp [segsTest, segsExec, hw, hn, hpu, ih]

/-- Claim C7: for every pattern and every URL, test is true exactly when
exec returns a non-absent result; extraction substitutes the literal
segments for the template parameters with the query string ignored
(template /path/:p1/:p2 against /path/a/b?k=v yields p1 = a, p2 = b);
a trailing wildcard captures the remainder under key "0" (template
/static/* against /static/a/b.html yields a/b.html), and the string key
and the integer key read the identical value. -/
theorem pattern_test_iff_exec :
    (∀ (p : String) (u : URLParts), patternTest p u = (patternExec p u).isSome) ∧
    (∀ (p pn s1 s2 : String), patternExec p ⟨pn, s1⟩ = patternExec p ⟨pn, s2⟩) ∧
    patternExec "/path/:p1/:p2" ⟨"/path/a/b", "k=v"⟩ = some [("p1", "a"), ("p2", "b")] ∧
    patternExec "/static/*" ⟨"/static/a/b.html", ""⟩ = some [("0", "a/b.html")] ∧
    groupsGetStr ((patternExec "/static/*" ⟨"/static/a/b.html", ""⟩).getD []) "0"
      = some "a/b.html" ∧
    groupsGetNat ((patternExec "/static/*" ⟨"/static/a/b.html", ""⟩).getD []) 0
      = groupsGetStr ((patternExec "/static/*" ⟨"/static/a/b.html", ""⟩).getD []) "0" := by
  refine ⟨fun p u => segsTest_eq_isSome _ _, fun p pn s1 s2 => rfl, ?_, ?_, ?_, ?_⟩ <;> decide

/-- find? returns the marked element when everything before it fails the
predicate and it passes. -/
theorem find?_first_of_prefix {α : Type} (q : α → Bool) (pre : List α) (x : α) (rest : List α)
    (hpre : ∀ y ∈ pre, q y = false) (hx : q x = true) :
    (pre ++ x :: rest).find? q = some x := by
  induction pre with
  | nil => simp [List.find?_cons, hx]
  | cons a as ih =>
    have ha : q a = false := hpre a (by simp)
    simp only [List.cons_append, List.find?_cons, ha]
    exact ih (fun y hy => hpre y (by simp [hy]))

/-- Claim C1: registration order is match priority.  First, sub appends
the child's rewritten entries after every entry already present on the
parent for each method, preserving the child's order (so the property
propagates through any nesting depth); second, dispatch selects the
first entry of the method's list, in list order, whose pattern matches
the request URL. -/
theorem registration_order_is_priority :
    (∀ (r child : Route) (p : Option String) (m : Method),
      (r.sub p child).handlers m
        = r.handlers m
          ++ (child.handlers m).map (subEntry r.path (autoSlashPrefix p) child.path)) ∧
    (∀ (r : Route) (req : Request) (m : Method) (pre : List HandlerMatcher)
      (hm : HandlerMatcher) (rest : List HandlerMatcher),
      methodOfString req.method = some m →
      r.handlers m = pre ++ hm :: rest →
      (∀ x ∈ pre, patternTest x.pattern req.url = false) →
      patternTest hm.pattern req.url = true →
      r.findMatchHandler req = .ok (some (r, hm))) := by
  constructor
  · intro r child p m
    cases r
    rfl
  · intro r req m pre hm rest hmeth hsplit hpre hx
    unfold Route.findMatchHandler
    rw [hmeth]
    show Except.ok
        (((r.handlers m).find? (fun hm => patternTest hm.pattern req.url)).map
          (fun hm => (r, hm)))
      = Except.ok (some (r, hm))
    rw [hsplit, find?_first_of_prefix _ pre hm rest hpre hx]
    rfl

/-- Witness for C1 at the two-entry router whose entries both match /p:
the first-registered entry is selected. -/
theorem registration_order_is_priority_witness :
    methodOfString "GET" = some Method.GET ∧
    prioRoute.handlers Method.GET = [] ++ prioEntry1 :: [prioEntry2] ∧
    patternTest prioEntry1.pattern ⟨"/p", ""⟩ = true ∧
    prioRoute.findMatchHandler ⟨"GET", ⟨"/p", ""⟩⟩ = .ok (some (prioRoute, prioEntry1)) := by
  refine ⟨by decide, rfl, by decide, ?_⟩
  exact registration_order_is_priority.2 prioRoute ⟨"GET", ⟨"/p", ""⟩⟩ Method.GET []
    prioEntry1 [prioEntry2] (by decide) rfl (by intro x hx; cases hx) (by decide)

/-- For a request method inside the enum, findMatchHandler is the find
over that method's table. -/
theorem findMatchHandler_of_method (r : Route) (req : Request) (m : Method)
    (hmeth : methodOfString req.method = some m) :
    r.findMatchHandler req
      = .ok (((r.handlers m).find? (fun hm => patternTest hm.pattern req.url)).map
          (fun hm => (r, hm))) := by
  unfold Route.findMatchHandler
  rw [hmeth]

/-- A successful try block is returned unchanged by handle. -/
theorem handle_of_core_ok (r : Route) (req : Request) (info : Option String) (resp : Response)
    (h : r.handleCore req info = .ok resp) : r.handle req info = resp := by
  unfold Route.handle
  rw [h]

/-- A raised error is recovered by handle through mapError. -/
theorem handle_of_core_error (r : Route) (req : Request) (info : Option String) (e : Err)
    (h : r.handleCore req info = .error e) : r.handle req info = r.mapError e req := by
  unfold Route.handle
  rw [h]

/-- When an entry is found the try block is its dispatch. -/
theorem handleCore_of_find_some (r route : Route) (hm : HandlerMatcher) (req : Request)
    (info : Option String) (h : r.findMatchHandler req = .ok (some (route, hm))) :
    r.handleCore req info = dispatch route hm req info := by
  unfold Route.handleCore
  rw [h]

/-- Claim C4: when no entry of the request method's list matches the
URL, handle answers status 404 with a null body and no headers (the
match is the linear find over that list). -/
theorem no_match_gives_404 :
    ∀ (r : Route) (req : Request) (info : Option String) (m : Method),
      methodOfString req.method = some m →
      (∀ hm ∈ r.handlers m, patternTest hm.pattern req.url = false) →
      r.handle req info = ⟨404, none, []⟩ := by
  intro r req info m hmeth hall
  have hfind : (r.handlers m).find? (fun hm => patternTest hm.pattern req.url) = none := by
    rw [List.find?_eq_none]
    intro x hx
    simp [hall x hx]
  apply handle_of_core_ok
  unfold Route.handleCore
  rw [findMatchHandler_of_method r req m hmeth, hfind]
  rfl

/-- Witness for C4: an empty router answers 404 to GET /nope. -/
theorem no_match_gives_404_witness :
    methodOfString "GET" = some Method.GET ∧
    (Route.new none []).handle ⟨"GET", ⟨"/nope", ""⟩⟩ none = ⟨404, none, []⟩ := by
  refine ⟨by decide, ?_⟩
  exact no_match_gives_404 (Route.new none []) ⟨"GET", ⟨"/nope", ""⟩⟩ none Method.GET
    (by decide) (by intro hm h; cases h)

/-- Claim C5: every error raised by a filter or by the handler of the
matched entry, thrown synchronously or carried by a rejected promise,
is caught inside handle and converted to a Response through error
mapping; handle returns that mapped Response (no such error escapes). -/
theorem filter_handler_errors_mapped :
    ∀ (r route : Route) (hm : HandlerMatcher) (req : Request) (info : Option String) (e : Err),
      r.findMatchHandler req = .ok (some (route, hm)) →
      (filterPhase route hm req info = .error e ∨
        (∃ c, filterPhase route hm req info = .ok c ∧
          (hm.handler req c = .sync (.error e) ∨ hm.handler req c = .async (.error e)))) →
      r.handle req info = r.mapError e req := by
  intro r route hm req info e hfind hcase
  apply handle_of_core_error
  rw [handleCore_of_find_some r route hm req info hfind]
  rcases hcase with herr | ⟨c, hc, hh⟩
  · unfold dispatch
    rw [herr]
  · unfold dispatch
    rw [hc]
    show awaitOut (hm.handler req c) = Except.error e
    rcases hh with h | h <;> rw [h] <;> rfl

/-- Witness for C5 at a router whose handler throws synchronously: the
thrown error surfaces as the default-mapped 500 response. -/
theorem filter_handler_errors_mapped_witness :
    syncThrowRoute.findMatchHandler ⟨"GET", ⟨"/h", ""⟩⟩
      = .ok (some (syncThrowRoute, syncThrowEntry)) ∧
    filterPhase syncThrowRoute syncThrowEntry ⟨"GET", ⟨"/h", ""⟩⟩ none
      = .ok [("client", Val.undef)] ∧
    syncThrowEntry.handler ⟨"GET", ⟨"/h", ""⟩⟩ [("client", Val.undef)]
      = .sync (.error ⟨"Error", "boom"⟩) ∧
    syncThrowRoute.handle ⟨"GET", ⟨"/h", ""⟩⟩ none
      = syncThrowRoute.mapError ⟨"Error", "boom"⟩ ⟨"GET", ⟨"/h", ""⟩⟩ := by
  refine ⟨rfl, rfl, rfl, ?_⟩
  exact filter_handler_errors_mapped syncThrowRoute syncThrowRoute syncThrowEntry
    ⟨"GET", ⟨"/h", ""⟩⟩ none ⟨"Error", "boom"⟩ rfl
    (Or.inr ⟨[("client", Val.undef)], rfl, Or.inl rfl⟩)

/-- Claim C6: sub is a one-time snapshot.  A registration performed on
the child appears in a parent table exactly when sub is called after it
(the composed tables are those of the pre-registration child, entry for
entry); concretely, the parent absorbed before the late registration
answers 404 for the late path while a parent absorbed afterwards serves
it. -/
theorem sub_is_snapshot :
    (∀ (r child : Route) (p : Option String) (m : Method) (pth : String) (h : Handler)
      (fs : List RouteFilter) (m2 : Method),
      (r.sub p (child.add m pth h fs)).handlers m2
        = (r.sub p child).handlers m2
          ++ (if m2 = m then
                [subEntry r.path (autoSlashPrefix p) child.path (addEntry child.path pth h fs)]
              else [])) ∧
    snapParent.handle ⟨"GET", ⟨"/m/late", ""⟩⟩ none = ⟨404, none, []⟩ ∧
    snapParent.handle ⟨"GET", ⟨"/m/early", ""⟩⟩ none = ⟨200, some "early", []⟩ ∧
    snapParentLate.handle ⟨"GET", ⟨"/m/late", ""⟩⟩ none = ⟨200, some "late", []⟩ := by
  refine ⟨?_, by decide, by decide, by decide⟩
  intro r child p m pth h fs m2
  cases r with
  | mk rp rfs rem rhs rpar =>
    cases child with
    | mk cp cfs cem chs cpar =>
      by_cases hm2 : m2 = m
      · subst hm2
        simp [Route.sub, Route.add, Route.handlers, Route.path]
      · simp [Route.sub, Route.add, Route.handlers, Route.path, hm2]

/-- Claim C8 (code evaluation): the path-first overload of head appends
its entry to the GET list and leaves every other list, the HEAD list
included, unchanged, because the source forwards it to
add(Method.GET, ...). -/
theorem head_appends_to_get :
    (∀ (r : Route) (pth : String) (h : Handler) (fs : List RouteFilter) (m2 : Method),
      (r.head pth h fs).handlers m2
        = r.handlers m2 ++ (if m2 = Method.GET then [addEntry r.path pth h fs] else [])) ∧
    ((Route.new none []).head "/a" (constHandler "x") []).handlers Method.HEAD = [] ∧
    ((Route.new none []).head "/a" (constHandler "x") []).handlers Method.GET
      = [addEntry none "/a" (constHandler "x") []] := by
  refine ⟨?_, rfl, rfl⟩
  intro r pth h fs m2
  cases r with
  | mk rp rfs rem rhs rpar =>
    by_cases hm2 : m2 = Method.GET
    · subst hm2
      simp [Route.head, Route.add, Route.handlers, Route.path]
    · simp [Route.head, Route.add, Route.handlers, Route.path, hm2]

/-- Claim C10: a request method outside the enum makes the table lookup
yield no list; the TypeError raised by the find call is caught and
handle answers the error-mapped response, which under the default mapper
(no own mapper, no parent) is the 500 response carrying the TypeError
message, not a 404. -/
theorem unknown_method_is_mapped_error :
    ∀ (r : Route) (req : Request) (info : Option String),
      methodOfString req.method = none →
      (r.handle req info = r.mapError undefinedFindErr req ∧
        (r.errMapper = none → r.parent = none →
          r.handle req info = ⟨500, some undefinedFindErr.message, []⟩ ∧
          (r.handle req info).status ≠ 404)) := by
  intro r req info hmeth
  have hcore : r.handleCore req info = .error undefinedFindErr := by
    unfold Route.handleCore Route.findMatchHandler
    rw [hmeth]
  have hh : r.handle req info = r.mapError undefinedFindErr req :=
    handle_of_core_error r req info undefinedFindErr hcore
  refine ⟨hh, fun hem hpar => ?_⟩
  have hmap : r.mapError undefinedFindErr req = ⟨500, some undefinedFindErr.message, []⟩ := by
    cases r with
    | mk rp rfs rem rhs rpar =>
      simp only [Route.errMapper] at hem
      simp only [Route.parent] at hpar
      subst hem
      subst hpar
      rfl
  rw [hh, hmap]
  exact ⟨rfl, by decide⟩

/-- Witness for C10: an empty router answers the default 500 TypeError
response to a request with method FOO. -/
theorem unknown_method_is_mapped_error_witness :
    methodOfString "FOO" = none ∧
    (Route.new none []).handle ⟨"FOO", ⟨"/", ""⟩⟩ none
      = ⟨500, some undefinedFindErr.message, []⟩ := by
  refine ⟨by decide, ?_⟩
  exact ((unknown_method_is_mapped_error (Route.new none []) ⟨"FOO", ⟨"/", ""⟩⟩ none
    (by decide)).2 rfl rfl).1

/-- Claim C2 (code evaluation): in the three-level nested router of the
test suite, the handler at /a/b/h observes the marker string r|bh, not
r|a|b|bh: the dispatching root runs only its own filters (no parent link
is ever installed) followed by the entry's own filters, and the child
and grandchild route filters are dropped by the flattening of sub. -/
theorem nested_filter_order_eval :
    nestedFilterRoute.handle ⟨"GET", ⟨"/a/b/h", ""⟩⟩ none = ⟨200, some "r|bh", []⟩ ∧
    nestedFilterRoute.handle ⟨"GET", ⟨"/a/h", ""⟩⟩ none = ⟨200, some "r|ah", []⟩ ∧
    nestedFilterRoute.handle ⟨"GET", ⟨"/h", ""⟩⟩ none = ⟨200, some "r|rh", []⟩ := by
  refine ⟨by decide, by decide, by decide⟩

/-- Claim C3 (code evaluation): in the nested error-mapper router of the
test suite, an error thrown under /a/h or /a/b/h is mapped by the
default mapper to the plain 500 response, not by the mapper of the
nested router that registered the handler: the flattened entry is owned
by the root, whose mapper chain is empty (sub installs no parent link),
so resolution never reaches the child mappers.  The default response is
status 500 with the error message as body and no headers. -/
theorem nested_mapper_eval :
    nestedMapperRoute.handle ⟨"GET", ⟨"/a/h", ""⟩⟩ none = ⟨500, some "ah", []⟩ ∧
    nestedMapperRoute.handle ⟨"GET", ⟨"/a/b/h", ""⟩⟩ none = ⟨500, some "bh", []⟩ ∧
    nestedMapperRoute.handle ⟨"GET", ⟨"/h", ""⟩⟩ none = ⟨500, some "h", []⟩ := by
  refine ⟨by decide, by decide, by decide⟩

/-- Claim C9 (code evaluation): joining a prefix that ends with a slash
with a further part drops the part entirely (the accumulator keeps only
the first element once that element ends with a slash), and duplicate
separators in later positions are not collapsed; the plain case without
trailing slashes concatenates as expected. -/
theorem joinUrlPath_eval :
    joinUrlPath [some "/x/", some "/a"] = some "/x/" ∧
    joinUrlPath [some "/x", some "/a/", some "/b"] = some "/x/a//b" ∧
    joinUrlPath [some "/x", some "/a"] = some "/x/a" ∧
    joinUrlPath [none, some ""] = some "" ∧
    joinUrlPath [] = none ∧
    autoSlashPrefix (some "x") = some "/x" ∧
    autoSlashPrefix (some "") = some "" := by
  refine ⟨by decide, by decide, by decide, by decide, by decide, by decide, by decide⟩
